import Mathlib

/-!
Verification of the threshold-crossing notification engine of
`claude_usage_menubar.py` (claude-usage-widget).

The Python module keeps, per tracked metric (`five_hour`, `seven_day`), a
list `sent` of threshold values already notified.  Each poll cycle runs
`reset_notifications_if_needed` (drop thresholds the utilization fell
below), then `should_send_notification` (compute newly crossed thresholds,
notify only the highest, mark all as sent), then merges `mark_sent` into
the state and saves it.  Utilizations are Python numbers; we embed them as
rationals.  File IO is embedded by passing the file's observable content
as an explicit argument.
-/

namespace ClaudeUsageWidget

/-- Embedding of `THRESHOLDS = [25, 50, 75, 90]` (line 43). -/
def THRESHOLDS : List ℚ := [25, 50, 75, 90]

/-- The two fixed metric keys, `"five_hour"` and `"seven_day"` in the
Python state dictionary. -/
inductive Metric
  | five_hour
  | seven_day
deriving DecidableEq, Repr

/-- Per-metric persisted state: the `{"sent": [...]}` entry. -/
structure MetricState where
  sent : List ℚ
deriving DecidableEq, Repr

/-- The whole notification state: one entry per fixed metric key, as in
the default value returned by `load_notification_state`. -/
structure NotificationState where
  five_hour : MetricState
  seven_day : MetricState
deriving DecidableEq, Repr

/-- Dictionary lookup `state[usage_type]` for the two fixed keys. -/
def getMetric (s : NotificationState) : Metric → MetricState
  | .five_hour => s.five_hour
  | .seven_day => s.seven_day

/-- Dictionary update `state[usage_type] = v`. -/
def setMetric (s : NotificationState) (m : Metric) (v : MetricState) : NotificationState :=
  match m with
  | .five_hour => { s with five_hour := v }
  | .seven_day => { s with seven_day := v }

/-- The other metric key, used to state frame conditions. -/
def otherMetric : Metric → Metric
  | .five_hour => .seven_day
  | .seven_day => .five_hour

/-- The default state `{"five_hour": {"sent": []}, "seven_day": {"sent": []}}`
returned by `load_notification_state` when the file is missing or unreadable
(lines 58-61). -/
def defaultState : NotificationState := ⟨⟨[]⟩, ⟨[]⟩⟩

/-- Observable content of the state file as the loader sees it: absent,
present but failing `json.load` (any exception is swallowed by the bare
`except`), or successfully parsed into a state. -/
inductive StateFile
  | missing
  | unreadable
  | readable (s : NotificationState)

/-- Embedding of `load_notification_state` (lines 50-61): return the parsed
file content if the file exists and parses, otherwise the default with both
`sent` lists empty.  The bare `except: pass` means no read or parse failure
ever propagates; the embedding is a total function. -/
def load_notification_state : StateFile → NotificationState
  | .missing => defaultState
  | .unreadable => defaultState
  | .readable s => s

/-- The dictionary `{'notify': [...], 'mark_sent': [...]}` returned by
`should_send_notification` when some threshold fires. -/
structure NotifyAction where
  notify : List ℚ
  mark_sent : List ℚ
deriving DecidableEq, Repr

/-- Python's `max` on a list of numbers: `max(x :: xs)` folds `max` from the
first element.  Only applied to nonempty lists by the code; the `[]` value is
arbitrary. -/
def listMax : List ℚ → ℚ
  | [] => 0
  | x :: xs => xs.foldl max x

/-- Embedding of `should_send_notification(usage_type, current_utilization,
state)` (lines 68-87): collect the thresholds at or below the utilization that
are not yet in `sent` (in ladder order), and if any exist return the highest
one to notify together with all of them to mark as sent. -/
def should_send_notification (usage_type : Metric) (current_utilization : ℚ)
    (state : NotificationState) : Option NotifyAction :=
  let sent_thresholds := (getMetric state usage_type).sent
  let thresholds_to_send :=
    THRESHOLDS.filter (fun t => decide (current_utilization ≥ t ∧ t ∉ sent_thresholds))
  if thresholds_to_send = [] then none
  else some { notify := [listMax thresholds_to_send], mark_sent := thresholds_to_send }

/-- Embedding of `reset_notifications_if_needed` (lines 138-143): when `sent`
is nonempty (Python truthiness of the list), keep only the thresholds still at
or below the current utilization; when it is empty the function does nothing. -/
def reset_notifications_if_needed (usage_type : Metric) (current_utilization : ℚ)
    (state : NotificationState) : NotificationState :=
  let sent_thresholds := (getMetric state usage_type).sent
  if sent_thresholds = [] then state
  else setMetric state usage_type
    ⟨sent_thresholds.filter (fun t => decide (current_utilization ≥ t))⟩

/-- Embedding of the `mark_sent` merge loop in `update_usage` (lines 453-456
and 472-475): append each threshold of `mark_sent` to `sent` unless already
present, in list order, against the list as updated so far. -/
def mergeMarkSent (m : Metric) (marks : List ℚ) (s : NotificationState) : NotificationState :=
  marks.foldl (fun st t =>
    let sent := (getMetric st m).sent
    if t ∈ sent then st else setMetric st m ⟨sent ++ [t]⟩) s

/-- A parsed utilization value: a number, or a non-numeric value such as the
string `"N/A"` (the `isinstance(..., (int, float))` guard in `update_usage`
distinguishes exactly these two cases). -/
inductive UtilValue
  | num (q : ℚ)
  | na (msg : String)
deriving DecidableEq, Repr

/-- The spec's `evaluate`: `should_send_notification` behind the numeric
guard of `update_usage` (lines 442 and 461) — a non-numeric utilization
yields `none` without touching the state. -/
def evaluate (m : Metric) (u : UtilValue) (s : NotificationState) : Option NotifyAction :=
  match u with
  | .num q => should_send_notification m q s
  | .na _ => none

/-- One metric's processing step inside `update_usage` (lines 442-458 for
`five_hour`, 461-477 for `seven_day`): when the utilization is numeric,
reconcile descent, evaluate, and on an action merge its `mark_sent` into the
state; when non-numeric, skip the metric entirely. -/
def process_metric (m : Metric) (u : UtilValue) (s : NotificationState) :
    Option NotifyAction × NotificationState :=
  match u with
  | .num q =>
    let s1 := reset_notifications_if_needed m q s
    match should_send_notification m q s1 with
    | some a => (some a, mergeMarkSent m a.mark_sent s1)
    | none => (none, s1)
  | .na _ => (none, s)

/-- Parsed output of `get_usage_from_newman_json` (lines 213-263): the two
(rounded) utilizations and the two `resets_at` strings. -/
structure UsageData where
  five_hour : UtilValue
  seven_day : UtilValue
  five_hour_reset : String
  seven_day_reset : String
deriving DecidableEq, Repr

/-- Rendering of a utilization in the menu bar title: Python interpolates the
number or the raw string (for a number, via its decimal representation). -/
def utilText : UtilValue → String
  | .num q => toString q
  | .na msg => msg

/-- The title string built at line 253: five hour and seven day utilizations. -/
def displayText (d : UsageData) : String :=
  "5h: " ++ utilText d.five_hour ++ "% | 7d: " ++ utilText d.seven_day ++ "%"

/-- The notifications dispatched for one metric: one `send_notification` call
per element of `notify` (lines 448-449 and 467-468). -/
def alertsOf (m : Metric) : Option NotifyAction → List (Metric × ℚ)
  | none => []
  | some a => a.notify.map (fun t => (m, t))

/-- Observable outcome of one `update_usage` cycle: the notification state at
the end, the display text, whether the state was written to disk, and the
notifications dispatched. -/
structure CycleResult where
  state : NotificationState
  text : String
  saved : Bool
  alerts : List (Metric × ℚ)
deriving DecidableEq, Repr

/-- Embedding of `UsageMonitorApp.update_usage` (lines 432-491).  The
external effects are passed in: `newman_ok` is `run_newman()`'s result and
`parsed`/`parse_text` are `get_usage_from_newman_json()`'s.  When Newman
fails the cycle does nothing and shows `"Newman failed"` (line 486); when
parsing yields no data the cycle does nothing and shows the parser's
message (line 484); otherwise both metrics are processed in order, the
state is saved (line 480), and the display text is built from the data. -/
def update_usage (newman_ok : Bool) (parsed : Option UsageData) (parse_text : String)
    (s : NotificationState) : CycleResult :=
  if newman_ok then
    match parsed with
    | some d =>
      let r5 := process_metric .five_hour d.five_hour s
      let r7 := process_metric .seven_day d.seven_day r5.2
      { state := r7.2
        text := displayText d
        saved := true
        alerts := alertsOf .five_hour r5.1 ++ alertsOf .seven_day r7.1 }
    | none => { state := s, text := parse_text, saved := false, alerts := [] }
  else { state := s, text := "Newman failed", saved := false, alerts := [] }

/-- Embedding of `format_reset_time` (lines 145-168) as a function of
`time_diff.total_seconds()`, the signed number of seconds from now to the
reset instant.  Python's float `//` and `%` are floor division and floor
remainder; `int(...)` of their results is exact, so both are embedded with
`Rat.floor`.  `hours // 24` and `hours % 24` act on a positive int, where
Lean's integer `/` and `%` agree with Python's. -/
def format_reset_time (total_seconds : ℚ) : String :=
  if total_seconds < 0 then "Resetting soon"
  else
    let hours : ℤ := (total_seconds / 3600).floor
    let remainder : ℚ := total_seconds - 3600 * ((total_seconds / 3600).floor : ℚ)
    let minutes : ℤ := (remainder / 60).floor
    if hours > 24 then
      "Resets in " ++ toString (hours / 24) ++ "d " ++ toString (hours % 24) ++ "h"
    else if hours > 0 then
      "Resets in " ++ toString hours ++ "h " ++ toString minutes ++ "m"
    else
      "Resets in " ++ toString minutes ++ "m"

/-- The notification states the program can hold: the default (initial load
of a missing or unreadable file, and `reset_notification_history`), and the
results of descent reconciliation and of merging an action's `mark_sent`.
Loading a file previously written by `save_notification_state` returns the
saved state unchanged, so it adds no new states. -/
inductive Reachable : NotificationState → Prop
  | loaded_default : Reachable defaultState
  | reconciled (m : Metric) (u : ℚ) (s : NotificationState) :
      Reachable s → Reachable (reset_notifications_if_needed m u s)
  | merged (m : Metric) (u : ℚ) (s : NotificationState) (a : NotifyAction) :
      Reachable s → should_send_notification m u s = some a →
      Reachable (mergeMarkSent m a.mark_sent s)
  | reset (s : NotificationState) : Reachable s → Reachable defaultState

/-- Boolean check that each metric's `sent` list only holds ladder values. -/
def sentWithinLadder (s : NotificationState) : Bool :=
  ((getMetric s .five_hour).sent.all (fun t => decide (t ∈ THRESHOLDS))) &&
  ((getMetric s .seven_day).sent.all (fun t => decide (t ∈ THRESHOLDS)))

/-! ## Helper lemmas -/

lemma getMetric_setMetric_same (s : NotificationState) (m : Metric) (v : MetricState) :
    getMetric (setMetric s m v) m = v := by
  cases m <;> rfl

lemma getMetric_setMetric_of_ne (s : NotificationState) {m m' : Metric} (v : MetricState)
    (h : m' ≠ m) : getMetric (setMetric s m v) m' = getMetric s m' := by
  cases m <;> cases m' <;> first | rfl | exact absurd rfl h

lemma otherMetric_ne (m : Metric) : otherMetric m ≠ m := by
  cases m <;> decide

lemma foldl_max_mem (xs : List ℚ) (x : ℚ) : xs.foldl max x ∈ x :: xs := by
  induction xs generalizing x with
  | nil => simp
  | cons y ys ih =>
    have h := ih (max x y)
    simp only [List.foldl_cons]
    rcases List.mem_cons.mp h with h | h
    · rcases max_choice x y with hx | hx <;> rw [h, hx] <;> simp
    · simp [h]

lemma le_foldl_max (xs : List ℚ) (x : ℚ) : ∀ t ∈ x :: xs, t ≤ xs.foldl max x := by
  induction xs generalizing x with
  | nil =>
    intro t ht
    rw [List.mem_singleton] at ht
    simp [ht]
  | cons y ys ih =>
    intro t ht
    simp only [List.foldl_cons]
    have hhead : max x y ≤ ys.foldl max (max x y) :=
      ih (max x y) (max x y) (List.mem_cons_self _ _)
    rcases List.mem_cons.mp ht with h | h
    · rw [h]
      exact le_trans (le_max_left x y) hhead
    · rcases List.mem_cons.mp h with h | h
      · rw [h]
        exact le_trans (le_max_right x y) hhead
      · exact ih (max x y) t (List.mem_cons_of_mem _ h)

lemma listMax_mem {l : List ℚ} (h : l ≠ []) : listMax l ∈ l := by
  cases l with
  | nil => exact absurd rfl h
  | cons x xs => exact foldl_max_mem xs x

lemma le_listMax {l : List ℚ} (t : ℚ) (ht : t ∈ l) : t ≤ listMax l := by
  cases l with
  | nil => exact absurd ht (List.not_mem_nil t)
  | cons x xs => exact le_foldl_max xs x t ht

/-- Unfolding of a successful `should_send_notification` call: the action's
`mark_sent` is the filtered ladder, its `notify` the singleton maximum. -/
lemma should_send_eq_some {m : Metric} {u : ℚ} {s : NotificationState} {a : NotifyAction}
    (h : should_send_notification m u s = some a) :
    a.mark_sent = THRESHOLDS.filter (fun t => decide (u ≥ t ∧ t ∉ (getMetric s m).sent)) ∧
    a.notify = [listMax a.mark_sent] ∧ a.mark_sent ≠ [] := by
  simp only [should_send_notification] at h
  by_cases hl : THRESHOLDS.filter (fun t => decide (u ≥ t ∧ t ∉ (getMetric s m).sent)) = []
  · rw [if_pos hl] at h
    exact absurd h (by simp)
  · rw [if_neg hl] at h
    have ha := Option.some.inj h
    rw [← ha]
    exact ⟨rfl, rfl, hl⟩

/-- Membership in `sent` after `reset_notifications_if_needed`. -/
lemma mem_sent_reset (m : Metric) (u : ℚ) (s : NotificationState) (t : ℚ) :
    t ∈ (getMetric (reset_notifications_if_needed m u s) m).sent ↔
      t ∈ (getMetric s m).sent ∧ u ≥ t := by
  simp only [reset_notifications_if_needed]
  by_cases h : (getMetric s m).sent = []
  · rw [if_pos h, h]
    simp
  · rw [if_neg h, getMetric_setMetric_same]
    simp [List.mem_filter]

lemma mergeMarkSent_cons (m : Metric) (x : ℚ) (xs : List ℚ) (s : NotificationState) :
    mergeMarkSent m (x :: xs) s =
      mergeMarkSent m xs
        (if x ∈ (getMetric s m).sent then s
         else setMetric s m ⟨(getMetric s m).sent ++ [x]⟩) := rfl

/-- Membership in `sent` after merging a `mark_sent` list. -/
lemma mem_sent_mergeMarkSent (m : Metric) (marks : List ℚ) (s : NotificationState) (t : ℚ) :
    t ∈ (getMetric (mergeMarkSent m marks s) m).sent ↔
      t ∈ (getMetric s m).sent ∨ t ∈ marks := by
  induction marks generalizing s with
  | nil => simp [mergeMarkSent]
  | cons x xs ih =>
    rw [mergeMarkSent_cons, ih]
    by_cases hx : x ∈ (getMetric s m).sent
    · rw [if_pos hx]
      constructor
      · rintro (h | h)
        · exact Or.inl h
        · exact Or.inr (List.mem_cons_of_mem _ h)
      · rintro (h | h)
        · exact Or.inl h
        · rcases List.mem_cons.mp h with rfl | h
          · exact Or.inl hx
          · exact Or.inr h
    · rw [if_neg hx, getMetric_setMetric_same]
      simp only [List.mem_append, List.mem_singleton, List.mem_cons]
      tauto

lemma getMetric_mergeMarkSent_of_ne (m : Metric) (marks : List ℚ) (s : NotificationState)
    {m' : Metric} (hm : m' ≠ m) :
    getMetric (mergeMarkSent m marks s) m' = getMetric s m' := by
  induction marks generalizing s with
  | nil => rfl
  | cons x xs ih =>
    rw [mergeMarkSent_cons, ih]
    by_cases hx : x ∈ (getMetric s m).sent
    · rw [if_pos hx]
    · rw [if_neg hx, getMetric_setMetric_of_ne _ _ hm]

lemma getMetric_reset_of_ne (m : Metric) (u : ℚ) (s : NotificationState)
    {m' : Metric} (hm : m' ≠ m) :
    getMetric (reset_notifications_if_needed m u s) m' = getMetric s m' := by
  simp only [reset_notifications_if_needed]
  by_cases h : (getMetric s m).sent = []
  · rw [if_pos h]
  · rw [if_neg h, getMetric_setMetric_of_ne _ _ hm]

lemma sentWithinLadder_iff (s : NotificationState) :
    sentWithinLadder s = true ↔ ∀ m : Metric, ∀ t ∈ (getMetric s m).sent, t ∈ THRESHOLDS := by
  simp only [sentWithinLadder, Bool.and_eq_true, List.all_eq_true, decide_eq_true_eq]
  constructor
  · rintro ⟨h5, h7⟩ m
    cases m with
    | five_hour => exact h5
    | seven_day => exact h7
  · intro h
    exact ⟨h .five_hour, h .seven_day⟩

/-- The invariant behind C4, proved by induction over reachability. -/
lemma reachable_sentWithinLadder {s : NotificationState} (h : Reachable s) :
    sentWithinLadder s = true := by
  induction h with
  | loaded_default => decide
  | reconciled m u s' _ ih =>
    rw [sentWithinLadder_iff] at ih ⊢
    intro m' t ht
    by_cases hm : m' = m
    · subst hm
      exact ih m' t ((mem_sent_reset m' u s' t).mp ht).1
    · rw [getMetric_reset_of_ne m u s' hm] at ht
      exact ih m' t ht
  | merged m u s' a _ ha ih =>
    rw [sentWithinLadder_iff] at ih ⊢
    intro m' t ht
    by_cases hm : m' = m
    · subst hm
      rcases (mem_sent_mergeMarkSent m' a.mark_sent s' t).mp ht with h | h
      · exact ih m' t h
      · rw [(should_send_eq_some ha).1] at h
        exact List.mem_of_mem_filter h
    · rw [getMetric_mergeMarkSent_of_ne m a.mark_sent s' hm] at ht
      exact ih m' t ht
  | reset s' _ _ => decide

/-! ## Claim theorems -/

/-- C1: for every metric, numeric utilization and state,
`should_send_notification` computes exactly the set of ladder thresholds at or
below the utilization and not yet in `sent`; if none exist it returns `none`,
otherwise the returned action notifies exactly one threshold — the maximum of
the newly crossed ones — and marks all of them as sent.  In particular, with
`sent` empty and utilization 95 it returns `notify = [90]` and
`mark_sent = [25, 50, 75, 90]`. -/
theorem should_send_notification_spec :
    (∀ (m : Metric) (u : ℚ) (s : NotificationState),
      match should_send_notification m u s with
      | none => ∀ t ∈ THRESHOLDS, ¬(u ≥ t ∧ t ∉ (getMetric s m).sent)
      | some a =>
          (∀ t : ℚ, t ∈ a.mark_sent ↔ t ∈ THRESHOLDS ∧ u ≥ t ∧ t ∉ (getMetric s m).sent) ∧
          ∃ hi, a.notify = [hi] ∧ hi ∈ a.mark_sent ∧ ∀ t ∈ a.mark_sent, t ≤ hi) ∧
    should_send_notification Metric.five_hour 95 defaultState =
      some { notify := [90], mark_sent := [25, 50, 75, 90] } := by
  refine ⟨fun m u s => ?_, by decide⟩
  rcases hres : should_send_notification m u s with - | a
  · intro t ht hc
    simp only [should_send_notification] at hres
    by_cases hl : THRESHOLDS.filter (fun t => decide (u ≥ t ∧ t ∉ (getMetric s m).sent)) = []
    · have : t ∈ THRESHOLDS.filter (fun t => decide (u ≥ t ∧ t ∉ (getMetric s m).sent)) := by
        rw [List.mem_filter]
        exact ⟨ht, by simpa using hc⟩
      rw [hl] at this
      exact absurd this (List.not_mem_nil t)
    · rw [if_neg hl] at hres
      exact absurd hres (by simp)
  · obtain ⟨hms, hn, hne⟩ := should_send_eq_some hres
    refine ⟨fun t => ?_, listMax a.mark_sent, hn, listMax_mem hne, fun t ht => le_listMax t ht⟩
    rw [hms, List.mem_filter]
    simp [and_assoc]

/-- C2: `reset_notifications_if_needed` removes from the metric's `sent` set
exactly the thresholds strictly above the utilization and keeps every
threshold at or below it: membership after the call holds iff the threshold
was present before and the utilization is still at or above it. -/
theorem reset_notifications_removes_exactly_descended :
    ∀ (m : Metric) (u : ℚ) (s : NotificationState) (t : ℚ),
      t ∈ (getMetric (reset_notifications_if_needed m u s) m).sent ↔
        t ∈ (getMetric s m).sent ∧ u ≥ t :=
  mem_sent_reset

/-- C3: a non-numeric utilization is a no-op: `evaluate` returns `none`, and
the per-metric cycle step neither reconciles, evaluates, nor mutates the
state. -/
theorem evaluate_na_no_op :
    ∀ (m : Metric) (msg : String) (s : NotificationState),
      evaluate m (UtilValue.na msg) s = none ∧
      process_metric m (UtilValue.na msg) s = (none, s) :=
  fun _ _ _ => ⟨rfl, rfl⟩

/-- C4: every reachable notification state — the loaded default, states
produced by descent reconciliation, states produced by merging an action's
`mark_sent`, and the explicit reset — keeps each metric's `sent` set inside
the fixed ladder `[25, 50, 75, 90]`. -/
theorem reachable_sent_subset_ladder (s : NotificationState) (h : Reachable s) :
    ∀ m : Metric, ∀ t ∈ (getMetric s m).sent, t ∈ THRESHOLDS :=
  (sentWithinLadder_iff s).mp (reachable_sentWithinLadder h)

/-- Witness for C4 at a concrete reachable state: merging the action produced
by utilization 30 on the default state yields `sent = [25]` for the five-hour
metric, and the invariant places 25 in the ladder. -/
theorem reachable_sent_subset_ladder_witness : (25 : ℚ) ∈ THRESHOLDS :=
  reachable_sent_subset_ladder
    (mergeMarkSent Metric.five_hour [25] defaultState)
    (Reachable.merged Metric.five_hour 30 defaultState
      { notify := [25], mark_sent := [25] } Reachable.loaded_default (by decide))
    Metric.five_hour 25 (by decide)

/-- C5: evaluation is idempotent under the caller's merge: if
`should_send_notification` returns an action and its `mark_sent` is merged
into the state, a second call with the same utilization returns `none`. -/
theorem evaluate_idempotent (m : Metric) (u : ℚ) (s : NotificationState)
    (a : NotifyAction) (h : should_send_notification m u s = some a) :
    should_send_notification m u (mergeMarkSent m a.mark_sent s) = none := by
  obtain ⟨hms, -, -⟩ := should_send_eq_some h
  have hnil : THRESHOLDS.filter
      (fun t => decide (u ≥ t ∧ t ∉ (getMetric (mergeMarkSent m a.mark_sent s) m).sent)) = [] := by
    apply List.filter_eq_nil_iff.mpr
    intro t ht
    simp only [decide_eq_true_eq, not_and, not_not]
    intro hut
    rw [mem_sent_mergeMarkSent]
    by_cases hs : t ∈ (getMetric s m).sent
    · exact Or.inl hs
    · refine Or.inr ?_
      rw [hms, List.mem_filter]
      exact ⟨ht, by simp [hut, hs]⟩
  simp only [should_send_notification]
  rw [if_pos hnil]

/-- Witness for C5: utilization 95 on the default state yields the action
marking all four thresholds; after the merge the second call is silent. -/
theorem evaluate_idempotent_witness :
    should_send_notification Metric.five_hour 95
      (mergeMarkSent Metric.five_hour [25, 50, 75, 90] defaultState) = none :=
  evaluate_idempotent Metric.five_hour 95 defaultState
    { notify := [90], mark_sent := [25, 50, 75, 90] } (by decide)

/-- C6: when `run_newman` fails, the cycle skips reconciliation and
evaluation for both metrics, leaves the state untouched, saves nothing,
dispatches no notification, and shows the fixed string `"Newman failed"`. -/
theorem fetch_failure_cycle_no_op :
    ∀ (parsed : Option UsageData) (parse_text : String) (s : NotificationState),
      update_usage false parsed parse_text s =
        { state := s, text := "Newman failed", saved := false, alerts := [] } :=
  fun _ _ _ => rfl

/-- C7 (amended): at 3661 seconds to reset the countdown renders
`"Resets in 1h 1m"` (containing the hour-minute reading `1h 1m`), and any
negative delta renders the fixed sentinel `"Resetting soon"`. -/
theorem format_reset_time_amended :
    format_reset_time 3661 = "Resets in 1h 1m" ∧
    (∀ ts : ℚ, ts < 0 → format_reset_time ts = "Resetting soon") := by
  constructor
  · with_unfolding_all rfl
  · intro ts h
    unfold format_reset_time
    rw [if_pos h]

/-- C7 counterexample: the rendered countdown at 3661 seconds is not the bare
string `"1h 1m"` claimed by the spec — the code prefixes `"Resets in "`. -/
theorem format_reset_time_claim_counterexample : format_reset_time 3661 ≠ "1h 1m" := by
  have h : format_reset_time 3661 = "Resets in 1h 1m" := by with_unfolding_all rfl
  rw [h]
  decide

/-- C8: `load_notification_state` on a missing file, or on any read or parse
failure (the bare `except` swallows every exception), returns the documented
default with both metrics' `sent` sets empty; the embedding is a total
function, so no error reaches the caller. -/
theorem load_state_fails_soft :
    load_notification_state StateFile.missing = defaultState ∧
    load_notification_state StateFile.unreadable = defaultState ∧
    (getMetric defaultState Metric.five_hour).sent = [] ∧
    (getMetric defaultState Metric.seven_day).sent = [] :=
  ⟨rfl, rfl, rfl, rfl⟩

/-- C9: reconciliation and per-metric processing never touch the other
metric's entry, and a non-numeric utilization on one metric leaves the other
metric reconciled and evaluated independently (both for a non-numeric
five-hour and a non-numeric seven-day reading). -/
theorem metric_frame_independence :
    (∀ (m : Metric) (u : ℚ) (s : NotificationState),
      getMetric (reset_notifications_if_needed m u s) (otherMetric m) =
        getMetric s (otherMetric m)) ∧
    (∀ (m : Metric) (u : UtilValue) (s : NotificationState),
      getMetric (process_metric m u s).2 (otherMetric m) = getMetric s (otherMetric m)) ∧
    (∀ (msg : String) (v : UtilValue) (r1 r2 parse_text : String) (s : NotificationState),
      (update_usage true (some ⟨UtilValue.na msg, v, r1, r2⟩) parse_text s).state =
        (process_metric Metric.seven_day v s).2 ∧
      (update_usage true (some ⟨UtilValue.na msg, v, r1, r2⟩) parse_text s).alerts =
        alertsOf Metric.seven_day (process_metric Metric.seven_day v s).1) ∧
    (∀ (q : ℚ) (msg : String) (r1 r2 parse_text : String) (s : NotificationState),
      (update_usage true (some ⟨UtilValue.num q, UtilValue.na msg, r1, r2⟩) parse_text s).state =
        (process_metric Metric.five_hour (UtilValue.num q) s).2) := by
  refine ⟨fun m u s => getMetric_reset_of_ne m u s (otherMetric_ne m), fun m u s => ?_,
    fun msg v r1 r2 parse_text s => ⟨rfl, rfl⟩, fun q msg r1 r2 parse_text s => rfl⟩
  cases u with
  | na msg => rfl
  | num q =>
    simp only [process_metric]
    rcases hres : should_send_notification m q (reset_notifications_if_needed m q s) with - | a
    · exact getMetric_reset_of_ne m q s (otherMetric_ne m)
    · rw [getMetric_mergeMarkSent_of_ne m a.mark_sent _ (otherMetric_ne m),
        getMetric_reset_of_ne m q s (otherMetric_ne m)]

/-- C10: descent reconciliation never adds thresholds: the `sent` list after
`reset_notifications_if_needed` is a sublist (same elements, same order) of
the list before the call, and an empty `sent` list stays empty. -/
theorem reset_sent_sublist :
    ∀ (m : Metric) (u : ℚ) (s : NotificationState),
      ((getMetric (reset_notifications_if_needed m u s) m).sent).Sublist
        ((getMetric s m).sent) ∧
      ((getMetric s m).sent = [] →
        (getMetric (reset_notifications_if_needed m u s) m).sent = []) := by
  intro m u s
  constructor
  · simp only [reset_notifications_if_needed]
    by_cases h : (getMetric s m).sent = []
    · rw [if_pos h]
    · rw [if_neg h, getMetric_setMetric_same]
      exact List.filter_sublist _
  · intro h
    simp only [reset_notifications_if_needed]
    rw [if_pos h, h]

end ClaudeUsageWidget
